import Mathlib

/-
Verification of the archive codec in repo_management/files.py.

The development shallowly embeds the three core functions of the module:

* _extract_db_member_package_name : the Package-Identifier Resolver,
  Python: return "".join(re.split("(-)", re.sub("(/desc|/files)$", "", name))[:-4])

* _db_file_member_as_model : the Archive Reader, which filters the member
  names of a tar database with the regular expression "(/desc|/files)$",
  classifies each retained member and yields one RepoDbMemberData per match.

* _stream_package_base_to_db : the Archive Writer, which emits, per package
  of a pkgbase model, a directory entry, a desc member and (for a files
  database) a files member, with fixed owner/group/mode metadata and the
  current time as modification time.

Embedding conventions:

* Python strings are Lean Strings; character-level reasoning goes through
  String.data (a List Char).
* The regular expression "(/desc|/files)$" is anchored at the end of the
  string, so re.sub removes at most one occurrence of "/desc" or "/files"
  at the very end, and re.search is a suffix test.  Both are embedded as
  suffix operations on the character list.  (Python's "$" would also match
  just before a trailing newline; member paths of a tar archive do not end
  in a newline, and none of the claims quantifies over such inputs, so the
  end-of-string reading is used.)
* re.split("(-)", s) splits s on "-" and keeps the separator as a token:
  it is embedded as List.intersperse ['-'] over the dash-free pieces.
* Python functions may raise; the resolver is embedded with an Except
  result so that "fails with IdentifierFormatError" is statable.  Its body
  contains no raise and no fallible operation, so every path returns ok.
* tarfile.TarFile is embedded as a list of entries; tarfile.TarInfo as a
  record of the fields the writer sets; int(time.time()) as an explicit
  `now` argument.
-/

namespace RepoManagement

/-- Embedding of re.split("(-)", ·), part 1: the dash-free pieces of a
character list, in order, empty pieces preserved (as Python str.split("-")). -/
def splitOnDash : List Char → List (List Char)
  | [] => [[]]
  | c :: rest =>
    if c = '-' then [] :: splitOnDash rest
    else
      match splitOnDash rest with
      | [] => [[c]]
      | p :: ps => (c :: p) :: ps

/-- Embedding of re.split("(-)", ·): the pieces interleaved with the
retained separator token "-". -/
def reSplitDash (l : List Char) : List (List Char) :=
  List.intersperse ['-'] (splitOnDash l)

/-- Embedding of re.sub("(/desc|/files)$", "", ·): remove a final "/desc"
or "/files".  The alternatives cannot both match at the end of one string,
so a single conditional strip is faithful. -/
def stripMemberSuffix (name : List Char) : List Char :=
  if "/desc".data <:+ name then name.take (name.length - 5)
  else if "/files".data <:+ name then name.take (name.length - 6)
  else name

/-- Drop the last four hyphen-retaining tokens of a directory name and
concatenate the rest: "".join(re.split("(-)", dirname)[:-4]). -/
def extractPackageNameCore (dirname : List Char) : List Char :=
  ((reSplitDash dirname).take ((reSplitDash dirname).length - 4)).flatten

/-- Character-list core of _extract_db_member_package_name:
"".join(re.split("(-)", re.sub("(/desc|/files)$", "", name))[:-4]). -/
def extractPackageName (name : List Char) : List Char :=
  extractPackageNameCore (stripMemberSuffix name)

/-- Error taxonomy of the specification relevant to the resolver.  The
source in files.py raises none of these: the resolver body has no raise
statement and no fallible operation. -/
inductive RepoError where
  | IdentifierFormatError (msg : String)

/-- Embedding of _extract_db_member_package_name (files.py, lines 44-57).
Python functions may raise, hence the Except result type; this body always
returns ok since the source contains no raise and no fallible operation. -/
def _extract_db_member_package_name (name : String) : Except RepoError String :=
  Except.ok (String.mk (extractPackageName name.data))

/-- Whether a resolver result is a raised error. -/
def isErrorResult : Except RepoError String → Bool
  | Except.error _ => true
  | Except.ok _ => false

/-- The number of hyphen-retaining tokens re.split("(-)", ·) produces for
the directory-name part of a member path. -/
def tokenCount (name : String) : Nat :=
  (reSplitDash (stripMemberSuffix name.data)).length

/-! Basic lemmas about the split. -/

theorem splitOnDash_ne_nil (l : List Char) : splitOnDash l ≠ [] := by
  cases l with
  | nil => simp [splitOnDash]
  | cons c rest =>
    simp only [splitOnDash]
    split
    · simp
    · split <;> simp

theorem splitOnDash_append_dash (a b : List Char) :
    splitOnDash (a ++ '-' :: b) = splitOnDash a ++ splitOnDash b := by
  induction a with
  | nil => simp [splitOnDash]
  | cons c a ih =>
    by_cases hc : c = '-'
    · subst hc
      simp [splitOnDash, ih]
    · have hne := splitOnDash_ne_nil a
      cases hsa : splitOnDash a with
      | nil => exact absurd hsa hne
      | cons p ps =>
        simp [splitOnDash, hc, ih, hsa]

theorem splitOnDash_no_dash (l : List Char) (h : '-' ∉ l) : splitOnDash l = [l] := by
  induction l with
  | nil => rfl
  | cons c rest ih =>
    have hc : c ≠ '-' := fun hc => h (hc ▸ List.mem_cons_self c rest)
    have hrest : '-' ∉ rest := fun hm => h (List.mem_cons_of_mem c hm)
    simp only [splitOnDash, if_neg hc, ih hrest]

theorem length_intersperse_dash (s : List Char) (l : List (List Char)) :
    (List.intersperse s l).length = 2 * l.length - 1 := by
  induction l with
  | nil => rfl
  | cons p ps ih =>
    cases ps with
    | nil => rfl
    | cons q qs =>
      rw [List.intersperse_cons_cons]
      simp only [List.length_cons] at ih ⊢
      omega

theorem intersperse_append_of_ne_nil (s : List Char) (P Q : List (List Char))
    (hP : P ≠ []) (hQ : Q ≠ []) :
    List.intersperse s (P ++ Q) = List.intersperse s P ++ s :: List.intersperse s Q := by
  induction P with
  | nil => exact absurd rfl hP
  | cons p ps ih =>
    cases ps with
    | nil =>
      cases Q with
      | nil => exact absurd rfl hQ
      | cons q qs => simp [List.intersperse_cons_cons, List.intersperse_singleton]
    | cons r rs =>
      have h2 : List.intersperse s ((r :: rs) ++ Q)
          = List.intersperse s (r :: rs) ++ s :: List.intersperse s Q := by
        exact ih (by simp)
      calc List.intersperse s ((p :: r :: rs) ++ Q)
          = p :: s :: List.intersperse s ((r :: rs) ++ Q) := by
            simp [List.intersperse_cons_cons]
        _ = p :: s :: (List.intersperse s (r :: rs) ++ s :: List.intersperse s Q) := by
            rw [h2]
        _ = List.intersperse s (p :: r :: rs) ++ s :: List.intersperse s Q := by
            rw [List.intersperse_cons_cons]; simp

theorem flatten_intersperse_cons (s : List Char) (p : List Char) (ps : List (List Char)) :
    (List.intersperse s (p :: ps)).flatten = p ++ ps.flatMap (fun q => s ++ q) := by
  induction ps generalizing p with
  | nil => simp [List.intersperse_singleton]
  | cons q qs ih =>
    rw [List.intersperse_cons_cons]
    simp only [List.flatten_cons, ih q, List.flatMap_cons]
    simp [List.append_assoc]

theorem flatten_intersperse_splitOnDash (l : List Char) :
    (List.intersperse ['-'] (splitOnDash l)).flatten = l := by
  induction l with
  | nil => rfl
  | cons c rest ih =>
    by_cases hc : c = '-'
    · subst hc
      have hne := splitOnDash_ne_nil rest
      cases hs : splitOnDash rest with
      | nil => exact absurd hs hne
      | cons p ps =>
        rw [hs] at ih
        simp only [splitOnDash, if_pos rfl, hs, List.intersperse_cons_cons,
          List.flatten_cons]
        simp [ih]
    · have hne := splitOnDash_ne_nil rest
      cases hs : splitOnDash rest with
      | nil => exact absurd hs hne
      | cons p ps =>
        rw [hs] at ih
        simp only [splitOnDash, if_neg hc, hs]
        cases ps with
        | nil =>
          simp only [List.intersperse_singleton, List.flatten_cons,
            List.flatten_nil, List.append_nil] at ih ⊢
          simp [ih]
        | cons q qs =>
          rw [List.intersperse_cons_cons] at ih ⊢
          simp only [List.flatten_cons] at ih ⊢
          simp only [← ih]
          simp

/-! Lemmas about the suffix strip. -/

theorem suffix_getLast? (l s : List Char) (h : l <:+ s) (hl : l ≠ []) :
    s.getLast? = l.getLast? := by
  obtain ⟨t, ht⟩ := h
  rw [← ht]
  exact List.getLast?_append_of_ne_nil t hl

theorem not_desc_suffix_of_files (d : List Char) :
    ¬ ("/desc".data <:+ d ++ "/files".data) := by
  intro h
  have h1 : (d ++ "/files".data).getLast? = "/desc".data.getLast? :=
    suffix_getLast? _ _ h (by decide)
  have h2 : (d ++ "/files".data).getLast? = "/files".data.getLast? :=
    suffix_getLast? _ _ (List.suffix_append d _) (by decide)
  rw [h1] at h2
  simp at h2

theorem stripMemberSuffix_desc (d : List Char) :
    stripMemberSuffix (d ++ "/desc".data) = d := by
  have hs : "/desc".data <:+ d ++ "/desc".data := List.suffix_append d _
  rw [stripMemberSuffix, if_pos hs]
  have hlen : (d ++ "/desc".data).length - 5 = d.length := by
    simp [List.length_append]
  rw [hlen, List.take_left]

theorem stripMemberSuffix_files (d : List Char) :
    stripMemberSuffix (d ++ "/files".data) = d := by
  have hs : "/files".data <:+ d ++ "/files".data := List.suffix_append d _
  rw [stripMemberSuffix, if_neg (not_desc_suffix_of_files d), if_pos hs]
  have hlen : (d ++ "/files".data).length - 6 = d.length := by
    simp [List.length_append]
  rw [hlen, List.take_left]

/-! The core extraction lemma: on a directory name of the shape
name-version-release with hyphen-free version and release, dropping the
last four hyphen-retaining tokens recovers exactly the name. -/

theorem extract_of_name_version_release (nm v r : List Char)
    (hv : '-' ∉ v) (hr : '-' ∉ r) :
    extractPackageName ((nm ++ '-' :: (v ++ '-' :: r)) ++ "/desc".data) = nm ∧
    extractPackageName ((nm ++ '-' :: (v ++ '-' :: r)) ++ "/files".data) = nm := by
  have hsplit : splitOnDash (nm ++ '-' :: (v ++ '-' :: r))
      = splitOnDash nm ++ [v, r] := by
    rw [splitOnDash_append_dash, splitOnDash_append_dash,
      splitOnDash_no_dash v hv, splitOnDash_no_dash r hr]
    simp
  have hPne := splitOnDash_ne_nil nm
  have hinter : reSplitDash (nm ++ '-' :: (v ++ '-' :: r))
      = List.intersperse ['-'] (splitOnDash nm) ++ [['-'], v, ['-'], r] := by
    rw [reSplitDash, hsplit,
      intersperse_append_of_ne_nil _ _ _ hPne (by simp)]
    simp [List.intersperse_cons_cons, List.intersperse_singleton]
  have hlen : (List.intersperse ['-'] (splitOnDash nm)).length
      = 2 * (splitOnDash nm).length - 1 := length_intersperse_dash _ _
  have hcount : (reSplitDash (nm ++ '-' :: (v ++ '-' :: r))).length
      = (List.intersperse ['-'] (splitOnDash nm)).length + 4 := by
    rw [hinter]; simp
  have hcore : extractPackageNameCore (nm ++ '-' :: (v ++ '-' :: r)) = nm := by
    unfold extractPackageNameCore
    rw [hcount, Nat.add_sub_cancel, hinter, List.take_left,
      flatten_intersperse_splitOnDash]
  constructor
  · rw [extractPackageName, stripMemberSuffix_desc, hcore]
  · rw [extractPackageName, stripMemberSuffix_files, hcore]

theorem dash_data : "-".data = ['-'] := rfl

/-- Shared consequence of the token-window drop: when the directory name
yields at most four hyphen-retaining tokens, dropping the last four leaves
nothing, so the resolver returns the empty string (and, having no raise in
its body, returns it as a normal value). -/
theorem extract_empty_of_few_tokens (name : String) (h : tokenCount name ≤ 4) :
    _extract_db_member_package_name name = Except.ok "" := by
  unfold tokenCount at h
  have h0 : (reSplitDash (stripMemberSuffix name.data)).length - 4 = 0 := by omega
  simp only [_extract_db_member_package_name, extractPackageName,
    extractPackageNameCore, h0, List.take_zero, List.flatten_nil]

/-- C1: for every member path <dirname>/desc or <dirname>/files whose
dirname has the shape <name>-<version>-<release>, with version and release
free of hyphens (so <name> may contain zero or more internal hyphens), the
resolver returns exactly <name>. -/
theorem resolver_recovers_name (name version release : String)
    (hv : '-' ∉ version.data) (hr : '-' ∉ release.data) :
    _extract_db_member_package_name (name ++ "-" ++ version ++ "-" ++ release ++ "/desc")
      = Except.ok name ∧
    _extract_db_member_package_name (name ++ "-" ++ version ++ "-" ++ release ++ "/files")
      = Except.ok name := by
  have h := extract_of_name_version_release name.data version.data release.data hv hr
  have hd : (name ++ "-" ++ version ++ "-" ++ release ++ "/desc").data
      = (name.data ++ '-' :: (version.data ++ '-' :: release.data)) ++ "/desc".data := by
    simp [String.data_append, dash_data]
  have hf : (name ++ "-" ++ version ++ "-" ++ release ++ "/files").data
      = (name.data ++ '-' :: (version.data ++ '-' :: release.data)) ++ "/files".data := by
    simp [String.data_append, dash_data]
  constructor
  · simp only [_extract_db_member_package_name, hd, h.1]
  · simp only [_extract_db_member_package_name, hf, h.2]

/-- Witness for C1: the directory name foo-bar-1.0-1 resolves to foo-bar,
for the desc member and the files member alike. -/
theorem resolver_recovers_name_witness :
    _extract_db_member_package_name "foo-bar-1.0-1/desc" = Except.ok "foo-bar" ∧
    _extract_db_member_package_name "foo-bar-1.0-1/files" = Except.ok "foo-bar" :=
  resolver_recovers_name "foo-bar" "1.0" "1" (by decide) (by decide)

/-- C3, counterexample: on the member path foo/desc the directory name has
a single hyphen-retaining token (fewer than four), yet the resolver does
not fail with IdentifierFormatError - it returns normally (with ""). -/
theorem resolver_no_failure_counterexample :
    tokenCount "foo/desc" < 4 ∧
      isErrorResult (_extract_db_member_package_name "foo/desc") = false := by
  decide

/-- C3 as amended: for every member path whose directory name splits into
fewer than four hyphen-retaining tokens the resolver does not raise; it
returns the empty string. -/
theorem resolver_short_name_returns_empty (name : String) (h : tokenCount name < 4) :
    _extract_db_member_package_name name = Except.ok "" :=
  extract_empty_of_few_tokens name (Nat.le_of_lt h)

/-- Witness for the amended C3 at the concrete member path foo/desc. -/
theorem resolver_short_name_returns_empty_witness :
    tokenCount "foo/desc" < 4 ∧
      _extract_db_member_package_name "foo/desc" = Except.ok "" :=
  ⟨by decide, resolver_short_name_returns_empty "foo/desc" (by decide)⟩

/-- C9: for every member path whose directory name splits into at most
four hyphen-retaining tokens (for example foo, or foo-1.0), the resolver
returns the empty string and never raises. -/
theorem resolver_at_most_four_tokens_empty (name : String) (h : tokenCount name ≤ 4) :
    _extract_db_member_package_name name = Except.ok "" :=
  extract_empty_of_few_tokens name h

/-- Witness for C9 at the concrete member path foo-1.0/desc (one internal
hyphen, three tokens). -/
theorem resolver_at_most_four_tokens_empty_witness :
    tokenCount "foo-1.0/desc" ≤ 4 ∧
      _extract_db_member_package_name "foo-1.0/desc" = Except.ok "" :=
  ⟨by decide, resolver_at_most_four_tokens_empty "foo-1.0/desc" (by decide)⟩

/-- C10: for every directory path d, the resolver yields the same package
name for the member paths d/desc and d/files. -/
theorem resolver_desc_files_agree (d : String) :
    _extract_db_member_package_name (d ++ "/desc")
      = _extract_db_member_package_name (d ++ "/files") := by
  simp only [_extract_db_member_package_name, extractPackageName, String.data_append]
  rw [stripMemberSuffix_desc, stripMemberSuffix_files]

/-! The Archive Reader: _db_file_member_as_model. -/

/-- Member kinds of defaults.RepoDbMemberType.  Modelled from the spec
(§3 ArchiveMember kinds; the defaults module is not under src/): DESC,
FILES, and the defensive UNKNOWN. -/
inductive RepoDbMemberType where
  | UNKNOWN
  | DESC
  | FILES
deriving DecidableEq

/-- Embedding of re.search("(/desc)$", name): a "/desc" suffix test. -/
def reSearchDescEnd (name : String) : Bool :=
  decide ("/desc".data <:+ name.data)

/-- Embedding of re.search("(/files)$", name): a "/files" suffix test. -/
def reSearchFilesEnd (name : String) : Bool :=
  decide ("/files".data <:+ name.data)

/-- Embedding of re.search at the reader's default regex
"(/desc|/files)$". -/
def matchesDefaultFilter (name : String) : Bool :=
  reSearchDescEnd name || reSearchFilesEnd name

/-- One member of a tar database as seen by the reader: its path and its
UTF-8 decoded text. -/
structure TarDbMember where
  name : String
  data : String
deriving DecidableEq

/-- models.RepoDbMemberData.  Modelled from the spec (§3 ArchiveMember:
path-derived name, member kind, raw decoded text; the models module is not
under src/). -/
structure RepoDbMemberData where
  member_type : RepoDbMemberType
  name : String
  data : String
deriving DecidableEq

/-- The member-type classification inside _db_file_member_as_model: start
from UNKNOWN, switch to DESC on a "/desc" suffix, then to FILES on a
"/files" suffix (two independent ifs, exactly as in the source). -/
def classifyMemberType (name : String) : RepoDbMemberType :=
  let file_type := RepoDbMemberType.UNKNOWN
  let file_type := if reSearchDescEnd name then RepoDbMemberType.DESC else file_type
  let file_type := if reSearchFilesEnd name then RepoDbMemberType.FILES else file_type
  file_type

/-- The RepoDbMemberData built for one retained member.  The resolver
always returns ok (its body has no raise), so the awaited name is its ok
payload. -/
def memberAsModel (m : TarDbMember) : RepoDbMemberData :=
  { member_type := classifyMemberType m.name,
    name := String.mk (extractPackageName m.name.data),
    data := m.data }

/-- Embedding of _db_file_member_as_model (files.py, lines 60-95) at its
default regex: iterate over the member names retained by the filter, in
traversal order, and yield one RepoDbMemberData per retained member. -/
def _db_file_member_as_model (db_file : List TarDbMember) : List RepoDbMemberData :=
  (db_file.filter fun m => matchesDefaultFilter m.name).map memberAsModel

/-- C5: the reader yields exactly one model per member whose path matches
the default filter (a "/desc" or "/files" suffix), in the archive's
traversal order, and silently skips every other member; nothing in the
embedding raises.  First part: extending the archive by one member
appends exactly one model when the member matches and nothing otherwise.
Second part: the number of models equals the number of matching members. -/
theorem reader_one_model_per_match :
    (∀ (db_file : List TarDbMember) (m : TarDbMember),
      _db_file_member_as_model (db_file ++ [m]) =
        _db_file_member_as_model db_file ++
          (if matchesDefaultFilter m.name then [memberAsModel m] else [])) ∧
    (∀ db_file : List TarDbMember,
      (_db_file_member_as_model db_file).length
        = (db_file.filter fun m => matchesDefaultFilter m.name).length) := by
  constructor
  · intro db m
    simp only [_db_file_member_as_model, List.filter_append, List.map_append]
    by_cases h : matchesDefaultFilter m.name <;> simp [h]
  · intro db
    simp [_db_file_member_as_model]

/-- A character list cannot end in "/desc" and in "/files" at once. -/
theorem not_desc_and_files_suffix (l : List Char)
    (h1 : "/desc".data <:+ l) (h2 : "/files".data <:+ l) : False := by
  have g1 := suffix_getLast? _ _ h1 (by decide)
  have g2 := suffix_getLast? _ _ h2 (by decide)
  rw [g1] at g2
  exact absurd g2 (by decide)

/-- C8: the reader classifies a retained member by suffix - "/desc" gives
DESC, "/files" gives FILES - and no member matching the default filter is
ever classified UNKNOWN. -/
theorem classify_by_suffix (name : String) :
    (reSearchDescEnd name = true → classifyMemberType name = RepoDbMemberType.DESC) ∧
    (reSearchFilesEnd name = true → classifyMemberType name = RepoDbMemberType.FILES) ∧
    (matchesDefaultFilter name = true → classifyMemberType name ≠ RepoDbMemberType.UNKNOWN) := by
  refine ⟨?_, ?_, ?_⟩
  · intro hd
    have hsd : "/desc".data <:+ name.data := of_decide_eq_true hd
    have hnf : reSearchFilesEnd name = false := by
      by_contra hf
      have hsf : "/files".data <:+ name.data :=
        of_decide_eq_true (Bool.of_not_eq_false hf)
      exact not_desc_and_files_suffix name.data hsd hsf
    simp [classifyMemberType, hd, hnf]
  · intro hf
    simp [classifyMemberType, hf]
  · intro hm
    rcases Bool.or_eq_true_iff.mp hm with hd | hf
    · have hsd : "/desc".data <:+ name.data := of_decide_eq_true hd
      have hnf : reSearchFilesEnd name = false := by
        by_contra hfx
        have hsf : "/files".data <:+ name.data :=
          of_decide_eq_true (Bool.of_not_eq_false hfx)
        exact not_desc_and_files_suffix name.data hsd hsf
      simp [classifyMemberType, hd, hnf]
    · simp [classifyMemberType, hf]

/-- Witness for C8 at concrete member paths. -/
theorem classify_by_suffix_witness :
    classifyMemberType "foo-1.0-1/desc" = RepoDbMemberType.DESC ∧
    classifyMemberType "foo-1.0-1/files" = RepoDbMemberType.FILES ∧
    classifyMemberType "pkg-2.0-2/desc" ≠ RepoDbMemberType.UNKNOWN :=
  ⟨(classify_by_suffix "foo-1.0-1/desc").1 (by decide),
   (classify_by_suffix "foo-1.0-1/files").2.1 (by decide),
   (classify_by_suffix "pkg-2.0-2/desc").2.2 (by decide)⟩

/-! The Archive Writer: _stream_package_base_to_db. -/

/-- Database kinds of defaults.RepoDbType.  Modelled from the spec (§6
database kind: desc-only vs. desc+files; the defaults module is not under
src/). -/
inductive RepoDbType where
  | DEFAULT
  | FILES
deriving DecidableEq

/-- Modelled from the spec: DB_USER, the fixed schema-defined owner name
of the defaults module (not under src/; the spec fixes no concrete value,
only that the value is a fixed constant). -/
def DB_USER : String := "root"

/-- Modelled from the spec: DB_GROUP, the fixed schema-defined group name
of the defaults module (not under src/). -/
def DB_GROUP : String := "root"

/-- Modelled from the spec: DB_DIR_MODE, the fixed directory permission
mode of the defaults module (not under src/), an octal string parsed with
int(., base=8) and distinct from the file mode. -/
def DB_DIR_MODE : String := "0755"

/-- Modelled from the spec: DB_FILE_MODE, the fixed file permission mode
of the defaults module (not under src/). -/
def DB_FILE_MODE : String := "0644"

/-- Embedding of int(s, base=8) for octal-digit strings. -/
def octToNat (s : String) : Nat :=
  s.data.foldl (fun acc c => acc * 8 + (c.toNat - '0'.toNat)) 0

/-- Byte length of the UTF-8 encoding of a string: len(s.encode()). -/
def utf8Len (s : String) : Nat :=
  s.data.foldl (fun n c => n + c.utf8Size) 0

/-- The tarfile entry types the writer uses. -/
inductive TarEntryType where
  | REGTYPE
  | DIRTYPE
deriving DecidableEq

/-- One tarfile.TarInfo as configured by the writer, together with the
bytes handed to addfile (none for a directory entry).  size stays at the
TarInfo default 0 for directory entries, exactly as in the source. -/
structure TarEntry where
  name : String
  typ : TarEntryType
  size : Nat
  mtime : Nat
  uname : String
  gname : String
  mode : Nat
  content : Option String
deriving DecidableEq

/-- The member name a TarEntry is serialized under: tarfile appends "/" to
the name of a DIRTYPE entry (TarInfo.get_info in CPython's tarfile). -/
def tarMemberName (e : TarEntry) : String :=
  if e.typ = TarEntryType.DIRTYPE ∧ ¬ ("/".data <:+ e.name.data) then e.name ++ "/"
  else e.name

/-- The desc model of one package, as produced by get_packages_as_models.
Modelled from the spec (§3 Package; the models module is not under src/):
the writer reads only the package name, the remaining metadata is consumed
by the abstract renderer. -/
structure OutputPackage where
  name : String
deriving DecidableEq

/-- The files model of one package.  Modelled from the spec (§3
FileList). -/
structure PackageFiles where
  files : List String
deriving DecidableEq

/-- convert.RepoDbFile, the template renderer.  Modelled from the spec
(§4.5 Record Renderer; the convert module is not under src/): the writer
only consumes the rendered text of the two templates, so each template is
an abstract string-valued rendering. -/
structure RepoDbFile where
  render_desc_template : OutputPackage → String
  render_files_template : PackageFiles → String

/-- models.OutputPackageBase.  Modelled from the spec (§3 PackageGroup:
a shared version string and the ordered packages of the group). -/
structure OutputPackageBase where
  version : String
  packages : List (OutputPackage × PackageFiles)

/-- get_packages_as_models: the ordered (desc model, files model) pairs of
the pkgbase.  Modelled from the spec. -/
def OutputPackageBase.get_packages_as_models (m : OutputPackageBase) :
    List (OutputPackage × PackageFiles) :=
  m.packages

/-- Loop body of _stream_package_base_to_db for one package: append the
directory entry, then the desc entry, then - for a files database - the
files entry. -/
def streamPackage (version : String) (repodbfile : RepoDbFile)
    (db_type : RepoDbType) (now : Nat) (db : List TarEntry)
    (pm : OutputPackage × PackageFiles) : List TarEntry :=
  let dirname := pm.1.name ++ "-" ++ version
  let directory : TarEntry :=
    { name := dirname, typ := TarEntryType.DIRTYPE, size := 0, mtime := now,
      uname := DB_USER, gname := DB_GROUP, mode := octToNat DB_DIR_MODE,
      content := none }
  let db := db ++ [directory]
  let desc_content := repodbfile.render_desc_template pm.1
  let desc_file : TarEntry :=
    { name := dirname ++ "/desc", typ := TarEntryType.REGTYPE,
      size := utf8Len desc_content, mtime := now, uname := DB_USER,
      gname := DB_GROUP, mode := octToNat DB_FILE_MODE,
      content := some desc_content }
  let db := db ++ [desc_file]
  if db_type = RepoDbType.FILES then
    let files_content := repodbfile.render_files_template pm.2
    let files_file : TarEntry :=
      { name := dirname ++ "/files", typ := TarEntryType.REGTYPE,
        size := utf8Len files_content, mtime := now, uname := DB_USER,
        gname := DB_GROUP, mode := octToNat DB_FILE_MODE,
        content := some files_content }
    db ++ [files_file]
  else db

/-- Embedding of _stream_package_base_to_db (files.py, lines 185-233).
The tarfile being appended to is the list db; int(time.time()) is the
explicit write time now. -/
def _stream_package_base_to_db (db : List TarEntry) (model : OutputPackageBase)
    (repodbfile : RepoDbFile) (db_type : RepoDbType) (now : Nat) : List TarEntry :=
  model.get_packages_as_models.foldl
    (streamPackage model.version repodbfile db_type now) db

/-- The entries emitted for one package, as one list. -/
def pkgEntries (version : String) (repodbfile : RepoDbFile)
    (db_type : RepoDbType) (now : Nat) (pm : OutputPackage × PackageFiles) :
    List TarEntry :=
  [{ name := pm.1.name ++ "-" ++ version, typ := TarEntryType.DIRTYPE, size := 0,
     mtime := now, uname := DB_USER, gname := DB_GROUP,
     mode := octToNat DB_DIR_MODE, content := none },
   { name := pm.1.name ++ "-" ++ version ++ "/desc", typ := TarEntryType.REGTYPE,
     size := utf8Len (repodbfile.render_desc_template pm.1), mtime := now,
     uname := DB_USER, gname := DB_GROUP, mode := octToNat DB_FILE_MODE,
     content := some (repodbfile.render_desc_template pm.1) }] ++
  (if db_type = RepoDbType.FILES then
    [{ name := pm.1.name ++ "-" ++ version ++ "/files", typ := TarEntryType.REGTYPE,
       size := utf8Len (repodbfile.render_files_template pm.2), mtime := now,
       uname := DB_USER, gname := DB_GROUP, mode := octToNat DB_FILE_MODE,
       content := some (repodbfile.render_files_template pm.2) }]
   else [])

theorem streamPackage_eq (version : String) (repodbfile : RepoDbFile)
    (db_type : RepoDbType) (now : Nat) (db : List TarEntry)
    (pm : OutputPackage × PackageFiles) :
    streamPackage version repodbfile db_type now db pm
      = db ++ pkgEntries version repodbfile db_type now pm := by
  by_cases h : db_type = RepoDbType.FILES <;>
    simp [streamPackage, pkgEntries, h]

theorem stream_spec (db : List TarEntry) (model : OutputPackageBase)
    (repodbfile : RepoDbFile) (db_type : RepoDbType) (now : Nat) :
    _stream_package_base_to_db db model repodbfile db_type now
      = db ++ model.get_packages_as_models.flatMap
          (pkgEntries model.version repodbfile db_type now) := by
  unfold _stream_package_base_to_db
  generalize model.get_packages_as_models = pkgs
  induction pkgs generalizing db with
  | nil => simp
  | cons p ps ih =>
    simp only [List.foldl_cons, List.flatMap_cons, streamPackage_eq, ih,
      List.append_assoc]

/-- C2: per package of the group, in order, the writer emits a directory
entry named <package-name>-<version> (the group's shared version), then the
desc member, then a files member only when the database kind includes file
lists; and writing a group with one package foo at version 1.0-1 to a
desc-only archive yields exactly the two members foo-1.0-1/ (directory)
and foo-1.0-1/desc, with no files member. -/
theorem writer_member_layout :
    (∀ (db : List TarEntry) (model : OutputPackageBase) (repodbfile : RepoDbFile)
        (db_type : RepoDbType) (now : Nat),
      ((_stream_package_base_to_db db model repodbfile db_type now).drop db.length).map
          (fun e => (e.name, e.typ))
        = model.get_packages_as_models.flatMap (fun pm =>
            [(pm.1.name ++ "-" ++ model.version, TarEntryType.DIRTYPE),
             (pm.1.name ++ "-" ++ model.version ++ "/desc", TarEntryType.REGTYPE)] ++
            (if db_type = RepoDbType.FILES then
              [(pm.1.name ++ "-" ++ model.version ++ "/files", TarEntryType.REGTYPE)]
             else []))) ∧
    (∀ (repodbfile : RepoDbFile) (fm : PackageFiles) (now : Nat),
      (_stream_package_base_to_db []
          { version := "1.0-1", packages := [({ name := "foo" }, fm)] }
          repodbfile RepoDbType.DEFAULT now).map tarMemberName
        = ["foo-1.0-1/", "foo-1.0-1/desc"]) := by
  constructor
  · intro db model repodbfile db_type now
    rw [stream_spec, List.drop_left]
    have hone : ∀ pm : OutputPackage × PackageFiles,
        (pkgEntries model.version repodbfile db_type now pm).map (fun e => (e.name, e.typ))
          = [(pm.1.name ++ "-" ++ model.version, TarEntryType.DIRTYPE),
             (pm.1.name ++ "-" ++ model.version ++ "/desc", TarEntryType.REGTYPE)] ++
            (if db_type = RepoDbType.FILES then
              [(pm.1.name ++ "-" ++ model.version ++ "/files", TarEntryType.REGTYPE)]
             else []) := by
      intro pm
      by_cases h : db_type = RepoDbType.FILES <;> simp [pkgEntries, h]
    generalize model.get_packages_as_models = pkgs
    induction pkgs with
    | nil => simp
    | cons p ps ih =>
      simp only [List.flatMap_cons, List.map_append, ih, hone]
  · intro repodbfile fm now
    rw [stream_spec]
    simp only [OutputPackageBase.get_packages_as_models, List.flatMap_cons,
      List.flatMap_nil, List.nil_append, List.append_nil, pkgEntries,
      if_neg (by decide : ¬ RepoDbType.DEFAULT = RepoDbType.FILES)]
    simp only [List.map_cons, List.map_nil, tarMemberName]
    rfl

/-- Sample renderer for concrete evaluations of the writer. -/
def sampleRepoDbFile : RepoDbFile :=
  { render_desc_template := fun p => "%NAME%\n" ++ p.name ++ "\n",
    render_files_template := fun _ => "%FILES%\n" }

/-- Sample pkgbase with a single package foo at version 1.0-1. -/
def sampleBase : OutputPackageBase :=
  { version := "1.0-1", packages := [({ name := "foo" }, { files := [] })] }

/-- C4, counterexample: writing the same pkgbase with the same renderer,
compression-independent entry list and database kind at two different
write times yields different archive member metadata (the modification
times differ), so two runs of the writer are not byte-identical. -/
theorem writer_runs_differ_by_mtime :
    _stream_package_base_to_db [] sampleBase sampleRepoDbFile RepoDbType.DEFAULT 0
      ≠ _stream_package_base_to_db [] sampleBase sampleRepoDbFile RepoDbType.DEFAULT 1 := by
  decide

/-- Drop the modification time of an entry. -/
def eraseMtime (e : TarEntry) : TarEntry :=
  { e with mtime := 0 }

/-- C4 as amended: the writer is deterministic up to modification times -
for a fixed ordered input, renderer and database kind, two runs produce
entry lists that agree on every field of every member except mtime, which
each run sets to its own write time (so runs with equal write times are
identical). -/
theorem writer_deterministic_up_to_mtime (db : List TarEntry)
    (model : OutputPackageBase) (repodbfile : RepoDbFile) (db_type : RepoDbType)
    (t1 t2 : Nat) :
    (_stream_package_base_to_db db model repodbfile db_type t1).map eraseMtime
      = (_stream_package_base_to_db db model repodbfile db_type t2).map eraseMtime := by
  rw [stream_spec, stream_spec, List.map_append, List.map_append]
  congr 1
  generalize model.get_packages_as_models = pkgs
  induction pkgs with
  | nil => rfl
  | cons p ps ih =>
    simp only [List.flatMap_cons, List.map_append, ih]
    congr 1
    by_cases h : db_type = RepoDbType.FILES <;> simp [pkgEntries, eraseMtime, h]

/-- C6: every member the writer emits with content (the desc member, and
the files member when emitted) records as its size exactly the byte length
of the UTF-8 encoding of that content. -/
theorem writer_size_is_encoded_length (db : List TarEntry)
    (model : OutputPackageBase) (repodbfile : RepoDbFile) (db_type : RepoDbType)
    (now : Nat) :
    ∀ e ∈ (_stream_package_base_to_db db model repodbfile db_type now).drop db.length,
      ∀ c, e.content = some c → e.size = utf8Len c := by
  rw [stream_spec, List.drop_left]
  intro e he c hc
  rcases List.mem_flatMap.mp he with ⟨pm, hpm, hin⟩
  by_cases h : db_type = RepoDbType.FILES
  · simp only [pkgEntries, if_pos h, List.cons_append, List.nil_append,
      List.mem_cons, List.not_mem_nil, or_false] at hin
    rcases hin with rfl | rfl | rfl
    · exact absurd hc (by simp)
    · simp only at hc
      obtain rfl := Option.some.inj hc
      rfl
    · simp only at hc
      obtain rfl := Option.some.inj hc
      rfl
  · simp only [pkgEntries, if_neg h, List.cons_append, List.nil_append,
      List.append_nil, List.mem_cons, List.not_mem_nil, or_false] at hin
    rcases hin with rfl | rfl
    · exact absurd hc (by simp)
    · simp only at hc
      obtain rfl := Option.some.inj hc
      rfl

/-- Witness for C6: in a concrete desc-only run, the desc member of
package foo carries content rendered by the sample renderer and its size
is the encoded byte length of that content. -/
theorem writer_size_is_encoded_length_witness :
    ({ name := "foo-1.0-1/desc", typ := TarEntryType.REGTYPE,
       size := utf8Len "%NAME%\nfoo\n", mtime := 0, uname := DB_USER,
       gname := DB_GROUP, mode := octToNat DB_FILE_MODE,
       content := some "%NAME%\nfoo\n" } : TarEntry).size
      = utf8Len "%NAME%\nfoo\n" :=
  writer_size_is_encoded_length [] sampleBase sampleRepoDbFile RepoDbType.DEFAULT 0
    _ (by decide) "%NAME%\nfoo\n" (by decide)

/-- C7: every entry the writer emits carries owner DB_USER, group
DB_GROUP, the fixed directory mode for directory entries and the fixed
(distinct) file mode for file entries - all constants, independent of any
host environment - and its modification time is the write time. -/
theorem writer_fixed_metadata :
    (∀ (db : List TarEntry) (model : OutputPackageBase) (repodbfile : RepoDbFile)
        (db_type : RepoDbType) (now : Nat),
      ∀ e ∈ (_stream_package_base_to_db db model repodbfile db_type now).drop db.length,
        e.uname = DB_USER ∧ e.gname = DB_GROUP ∧ e.mtime = now ∧
          e.mode = (if e.typ = TarEntryType.DIRTYPE then octToNat DB_DIR_MODE
                    else octToNat DB_FILE_MODE)) ∧
    octToNat DB_DIR_MODE ≠ octToNat DB_FILE_MODE := by
  constructor
  · intro db model repodbfile db_type now e he
    rw [stream_spec, List.drop_left] at he
    rcases List.mem_flatMap.mp he with ⟨pm, hpm, hin⟩
    by_cases h : db_type = RepoDbType.FILES
    · simp only [pkgEntries, if_pos h, List.cons_append, List.nil_append,
        List.mem_cons, List.not_mem_nil, or_false] at hin
      rcases hin with rfl | rfl | rfl <;> refine ⟨rfl, rfl, rfl, ?_⟩ <;> simp
    · simp only [pkgEntries, if_neg h, List.cons_append, List.nil_append,
        List.append_nil, List.mem_cons, List.not_mem_nil, or_false] at hin
      rcases hin with rfl | rfl <;> refine ⟨rfl, rfl, rfl, ?_⟩ <;> simp
  · decide

/-- Witness for C7: the directory entry of a concrete run carries the
fixed metadata. -/
theorem writer_fixed_metadata_witness :
    ({ name := "foo-1.0-1", typ := TarEntryType.DIRTYPE, size := 0, mtime := 0,
       uname := DB_USER, gname := DB_GROUP, mode := octToNat DB_DIR_MODE,
       content := none } : TarEntry).uname = DB_USER ∧
    ({ name := "foo-1.0-1", typ := TarEntryType.DIRTYPE, size := 0, mtime := 0,
       uname := DB_USER, gname := DB_GROUP, mode := octToNat DB_DIR_MODE,
       content := none } : TarEntry).mtime = 0 :=
  have h := writer_fixed_metadata.1 [] sampleBase sampleRepoDbFile
    RepoDbType.DEFAULT 0
    { name := "foo-1.0-1", typ := TarEntryType.DIRTYPE, size := 0, mtime := 0,
      uname := DB_USER, gname := DB_GROUP, mode := octToNat DB_DIR_MODE,
      content := none } (by decide)
  ⟨h.1, h.2.2.1⟩

end RepoManagement
